import Mathlib

/-!
Verification model of the Paulbot2 quadruped motion-control subsystem.

The embedding covers `src/servos.py` (per-joint actuator model: clamping,
smooth interpolation, angle-to-duty conversion), `src/servo_config.py`
(the fixed 8-servo configuration tables) and `src/gaits.py`
(`GaitController`: poses, walking gait, gesture keyframe sequencer).

The source computes with Python floats; the model is polymorphic over a
linear ordered field where possible (instantiated at `ℚ` for executable
witnesses) and uses `ℝ` for the gait synthesizer, whose trajectories use
`math.sin`.  Python `time.ticks_ms()` values are modelled as an explicit
`now : ℤ` argument to the operations that read the clock, and
`time.ticks_diff(a, b)` as the integer difference `a - b`.
-/

namespace Paulbot

/-- Truncation toward zero, the behaviour of Python's `int(...)` on a real
number. -/
def pyInt {α : Type} [LinearOrderedField α] [FloorRing α] (q : α) : ℤ :=
  if 0 ≤ q then ⌊q⌋ else ⌈q⌉

/-- One servo (class `Servo` in `src/servos.py`).  The PWM pin object is an
external output sink and is not part of the motion state; the duty-cycle
value sent to it is computed by `Servo.angle_to_duty` below. -/
structure Servo (α : Type) where
  name : String
  inverted : Bool
  min_angle : α
  max_angle : α
  center : α
  current_angle : α
  target_angle : α
deriving DecidableEq

namespace Servo

variable {α : Type} [LinearOrderedField α]

/-- `Servo._angle_to_duty`: convert an angle to a 16-bit PWM duty value.
Inversion maps `angle` to `180 - angle`, then the angle is linearly mapped
onto the pulse-width range `[MIN_US, MAX_US] = [500, 2500]` and scaled by
the PWM period (`20000 µs` at `50 Hz`) into a duty count. -/
def angle_to_duty [FloorRing α] (s : Servo α) (angle : α) : ℤ :=
  let a := if s.inverted then 180 - angle else angle
  let pulse_us := 500 + (a / 180) * (2500 - 500)
  let period_us := (1000000 : α) / 50
  pyInt ((pulse_us / period_us) * 65535)

/-- `Servo._write_angle`: clamp to the limits and write immediately
(the PWM write itself is the external sink). -/
def write_angle (s : Servo α) (angle : α) : Servo α :=
  let a := max s.min_angle (min s.max_angle angle)
  { s with current_angle := a }

/-- `Servo.__init__`: state starts at `center` for both current and target,
then `_write_angle(center)` is issued (which clamps the current angle). -/
def init (name : String) (inverted : Bool) (min_angle max_angle center : α) :
    Servo α :=
  write_angle ⟨name, inverted, min_angle, max_angle, center, center, center⟩ center

/-- `Servo.set_angle`: clamp the requested angle into the limits, store it as
the target, and additionally write it immediately when `immediate`. -/
def set_angle (s : Servo α) (angle : α) (immediate : Bool) : Servo α :=
  let a := max s.min_angle (min s.max_angle angle)
  let s' := { s with target_angle := a }
  if immediate then s'.write_angle a else s'

/-- `Servo.update`: smooth interpolation step.  Returns the moving flag
together with the updated servo.  `speed` is the resolved
degrees-per-second rate (the caller substitutes the configured default when
Python passes `None`). -/
def update (s : Servo α) (delta_time speed : α) : Bool × Servo α :=
  if |s.current_angle - s.target_angle| < 0.5 then
    (false, s)
  else
    let max_step := speed * delta_time
    let diff := s.target_angle - s.current_angle
    let step := max (-max_step) (min max_step diff)
    (true, s.write_angle (s.current_angle + step))

end Servo

/-! Configuration tables from `src/servo_config.py`. -/

/-- `ALL_SERVOS = FEMUR_SERVOS + KNEE_SERVOS`. -/
def ALL_SERVOS : List String := ["R1", "R2", "L1", "L2", "R3", "R4", "L3", "L4"]

/-- `SERVO_INVERTED` lookup (with `.get(name, False)` semantics). -/
def SERVO_INVERTED (name : String) : Bool :=
  if name = "L1" then true
  else if name = "L2" then true
  else if name = "R4" then true
  else if name = "L3" then true
  else false

/-- Per-servo speed fraction from `SERVO_SPEED` (with default `0.15`):
femurs `0.15`, knees `0.12`. -/
def SERVO_SPEED {α : Type} [LinearOrderedField α] (name : String) : α :=
  if name = "R3" ∨ name = "R4" ∨ name = "L3" ∨ name = "L4" then 0.12 else 0.15

/-- `SPEED_MULTIPLIER = 1.0`. -/
def SPEED_MULTIPLIER {α : Type} [LinearOrderedField α] : α := 1.0

/-- The default speed resolved in `Servo.update` when `speed is None`:
`SERVO_SPEED.get(name, 0.15) * 360 * SPEED_MULTIPLIER`. -/
def default_speed {α : Type} [LinearOrderedField α] (name : String) : α :=
  SERVO_SPEED name * 360 * SPEED_MULTIPLIER

/-! The servo bank (`ServoController` in `src/servos.py`), modelled as an
association list keyed by servo name, in `ALL_SERVOS` order as built by
`ServoController.__init__`. -/

/-- The bank built by `ServoController.__init__` from the configuration:
every servo has limits `(0, 180)` (`SERVO_LIMITS`), center `90`
(`SERVO_CENTER`) and its configured inversion flag. -/
def initServoBank (α : Type) [LinearOrderedField α] : List (String × Servo α) :=
  ALL_SERVOS.map fun name =>
    (name, Servo.init name (SERVO_INVERTED name) 0 180 90)

namespace ServoController

variable {α : Type} [LinearOrderedField α]

/-- `ServoController.set_servo`: forward to the named servo when present;
an unknown name falls through the `if name in self.servos` guard and is a
no-op. -/
def set_servo (bank : List (String × Servo α)) (name : String) (angle : α)
    (immediate : Bool) : List (String × Servo α) :=
  bank.map fun p => if p.1 = name then (p.1, p.2.set_angle angle immediate) else p

/-- `ServoController.set_positions`: apply `set_servo` for each entry of the
requested mapping. -/
def set_positions (bank : List (String × Servo α)) (positions : List (String × α))
    (immediate : Bool) : List (String × Servo α) :=
  positions.foldl (fun b q => set_servo b q.1 q.2 immediate) bank

/-- `ServoController.update_all`: step every servo with its default speed.
(The aggregated any-moving flag the source also returns is the disjunction
of the per-servo flags and is not used by the claims.) -/
def update_all (bank : List (String × Servo α)) (delta_time : α) :
    List (String × Servo α) :=
  bank.map fun p => (p.1, (p.2.update delta_time (default_speed p.1)).2)

/-- `ServoController.get_positions`: snapshot of current angles. -/
def get_positions (bank : List (String × Servo α)) : List (String × α) :=
  bank.map fun p => (p.1, p.2.current_angle)

/-- `ServoController.get_targets`: snapshot of target angles. -/
def get_targets (bank : List (String × Servo α)) : List (String × α) :=
  bank.map fun p => (p.1, p.2.target_angle)

end ServoController

/-! The gait / gesture controller (`GaitController` in `src/gaits.py`).
Angles are modelled over `ℝ` because the gait synthesizer uses `math.sin`.
A keyframe is `(positions?, duration)` as in the source's movement queue,
where `positions?` is `none` for the source's `None` hold-only keyframe. -/

/-- State of `GaitController` (its `__init__` fields).  The gait parameters
are the values `GaitController.__init__` reads from the `GAIT` table of
`src/servo_config.py`. -/
structure GaitController where
  servos : List (String × Servo ℝ)
  is_walking : Bool
  walk_phase : ℝ
  walk_speed : ℝ
  walk_direction : ℝ
  turn_direction : ℝ
  is_moving : Bool
  movement_queue : List (Option (List (String × ℝ)) × ℝ)
  current_movement : Option (Option (List (String × ℝ)) × ℝ)
  movement_start_time : ℤ
  movement_duration : ℤ
  stand_femur : ℝ
  stand_knee : ℝ
  step_lift : ℝ
  step_plant : ℝ
  step_fwd : ℝ
  step_back : ℝ

namespace GaitController

/-- `GaitController.__init__(servo_controller)` with the configured `GAIT`
parameters (`STAND_FEMUR=90`, `STAND_KNEE=180`, `STEP_LIFT=110`,
`STEP_PLANT=180`, `STEP_FWD=115`, `STEP_BACK=65`). -/
noncomputable def initController : GaitController :=
  { servos := initServoBank ℝ
    is_walking := false
    walk_phase := 0.0
    walk_speed := 1.0
    walk_direction := 0
    turn_direction := 0
    is_moving := false
    movement_queue := []
    current_movement := none
    movement_start_time := 0
    movement_duration := 0
    stand_femur := 90
    stand_knee := 180
    step_lift := 110
    step_plant := 180
    step_fwd := 115
    step_back := 65 }

/-- `GaitController.get_pose`: the named static pose tables, with
`poses.get(name, poses["neutral"])` fallback. -/
noncomputable def get_pose (st : GaitController) (name : String) : List (String × ℝ) :=
  if name = "neutral" then
    [("R1", 90), ("R2", 90), ("L1", 90), ("L2", 90),
     ("R3", 90), ("R4", 90), ("L3", 90), ("L4", 90)]
  else if name = "stand" then
    [("R1", st.stand_femur), ("R2", st.stand_femur), ("L1", st.stand_femur),
     ("L2", st.stand_femur), ("R3", st.stand_knee), ("R4", st.stand_knee),
     ("L3", st.stand_knee), ("L4", st.stand_knee)]
  else if name = "sit" then
    [("R1", 90), ("R2", 90), ("L1", 90), ("L2", 90),
     ("R3", 45), ("R4", 45), ("L3", 45), ("L4", 45)]
  else if name = "tall" then
    [("R1", 90), ("R2", 90), ("L1", 90), ("L2", 90),
     ("R3", 180), ("R4", 180), ("L3", 180), ("L4", 180)]
  else if name = "crouch" then
    [("R1", 90), ("R2", 90), ("L1", 90), ("L2", 90),
     ("R3", 120), ("R4", 120), ("L3", 120), ("L4", 120)]
  else
    [("R1", 90), ("R2", 90), ("L1", 90), ("L2", 90),
     ("R3", 90), ("R4", 90), ("L3", 90), ("L4", 90)]

/-- `GaitController.set_pose`: apply the named pose's angle map to the servo
bank with the given immediacy flag. -/
noncomputable def set_pose (st : GaitController) (name : String) (immediate : Bool) :
    GaitController :=
  { st with servos := ServoController.set_positions st.servos (st.get_pose name) immediate }

/-- `GaitController.get_walk_positions`: tripod-gait angles for a walk-cycle
phase.  `phase % 1.0` on a Python float is `Int.fract`. -/
noncomputable def get_walk_positions (st : GaitController)
    (phase direction turn : ℝ) : List (String × ℝ) :=
  let phase := Int.fract phase
  let swing := (st.step_fwd - st.step_back) / 2
  let center := (st.step_fwd + st.step_back) / 2
  let femur_a := center + Real.sin (phase * 2 * Real.pi) * swing * direction
  let femur_b := center + Real.sin ((phase + 0.5) * 2 * Real.pi) * swing * direction
  let knee_a := st.step_plant +
    max 0 (Real.sin (phase * 2 * Real.pi)) * (st.step_lift - st.step_plant)
  let knee_b := st.step_plant +
    max 0 (Real.sin ((phase + 0.5) * 2 * Real.pi)) * (st.step_lift - st.step_plant)
  let turn_bias := 15 * turn
  [("R1", femur_a - turn_bias), ("R3", knee_a),
   ("L2", femur_a + turn_bias), ("L4", knee_a),
   ("L1", femur_b + turn_bias), ("L3", knee_b),
   ("R2", femur_b - turn_bias), ("R4", knee_b)]

/-- `GaitController.start_walk`. -/
def start_walk (st : GaitController) (direction turn speed : ℝ) : GaitController :=
  { st with is_walking := true, walk_direction := direction,
            turn_direction := turn, walk_speed := speed }

/-- `GaitController.stop_walk`: clear the walking flag, then
`set_pose("stand", False)`. -/
noncomputable def stop_walk (st : GaitController) : GaitController :=
  set_pose { st with is_walking := false } "stand" false

/-- `GaitController.update_walk(dt)`: advance the phase by
`dt / (0.8 / walk_speed)`, subtract `1.0` once if the result reached `1.0`,
and write the synthesized positions immediately.  No-op when not walking. -/
noncomputable def update_walk (st : GaitController) (dt : ℝ) : GaitController :=
  if st.is_walking = false then st
  else
    let phase := st.walk_phase + dt / (0.8 / st.walk_speed)
    let phase := if phase ≥ 1.0 then phase - 1.0 else phase
    { st with
      walk_phase := phase
      servos := ServoController.set_positions st.servos
        (get_walk_positions st phase st.walk_direction st.turn_direction) true }

/-- `GaitController._next`: pop the next keyframe (if any), apply its
positions when present, and arm the keyframe timer from the clock `now`.
(The source also returns a progress flag that every caller discards.) -/
noncomputable def next_movement (st : GaitController) (now : ℤ) : GaitController :=
  match st.movement_queue with
  | [] => { st with is_moving := false }
  | m :: rest =>
      let st := { st with movement_queue := rest, current_movement := some m }
      let st := match m.1 with
        | some pos =>
            { st with servos := ServoController.set_positions st.servos pos true }
        | none => st
      { st with movement_start_time := now,
                movement_duration := pyInt (m.2 * 1000) }

/-- `GaitController._queue`: replace the movement queue, set the moving flag
and immediately advance to the first keyframe. -/
noncomputable def queue_movements (st : GaitController)
    (seq : List (Option (List (String × ℝ)) × ℝ)) (now : ℤ) : GaitController :=
  next_movement { st with movement_queue := seq, is_moving := true } now

/-- `GaitController.wave`. -/
noncomputable def wave (st : GaitController) (now : ℤ) : GaitController :=
  queue_movements st
    [(some [("R1", 90), ("R3", 45)], 0.3), (some [("R1", 60)], 0.2),
     (some [("R1", 120)], 0.2), (some [("R1", 60)], 0.2),
     (some [("R1", 120)], 0.2), (some [("R1", 90), ("R3", st.stand_knee)], 0.3)]
    now

/-- `GaitController.bow`. -/
noncomputable def bow (st : GaitController) (now : ℤ) : GaitController :=
  queue_movements st
    [(some [("R3", 120), ("L3", 120), ("R4", 160), ("L4", 160)], 0.5),
     (none, 0.5), (some (st.get_pose "stand"), 0.5)]
    now

/-- `GaitController.shake`. -/
noncomputable def shake (st : GaitController) (now : ℤ) : GaitController :=
  let half : List (Option (List (String × ℝ)) × ℝ) :=
    [(some [("R1", 70), ("R2", 70), ("L1", 110), ("L2", 110)], 0.15),
     (some [("R1", 110), ("R2", 110), ("L1", 70), ("L2", 70)], 0.15)]
  queue_movements st (half ++ half ++ half ++ [(some (st.get_pose "stand"), 0.3)]) now

/-- `GaitController.wiggle`. -/
noncomputable def wiggle (st : GaitController) (now : ℤ) : GaitController :=
  let pair : List (Option (List (String × ℝ)) × ℝ) :=
    [(some [("R2", 70), ("L2", 110)], 0.1), (some [("R2", 110), ("L2", 70)], 0.1)]
  queue_movements st (pair ++ pair ++ pair ++ [(some [("R2", 90), ("L2", 90)], 0.2)]) now

/-- `GaitController.update(dt)`: walking has priority; otherwise advance the
keyframe sequencer when the current keyframe's time has elapsed.  `now` is
the value `time.ticks_ms()` would return during this call. -/
noncomputable def update (st : GaitController) (dt : ℝ) (now : ℤ) : GaitController :=
  if st.is_walking then st.update_walk dt
  else if st.is_moving then
    if now - st.movement_start_time ≥ st.movement_duration then
      st.next_movement now
    else st
  else st

/-- `GaitController.stop_all`. -/
def stop_all (st : GaitController) : GaitController :=
  { st with is_walking := false, is_moving := false, movement_queue := [] }

end GaitController

open GaitController ServoController

/-! ## Invariants and operation inventories used by the claims -/

/-- Both motion angles of a servo lie within its configured limits. -/
def Servo.inRange {α : Type} [LinearOrderedField α] (s : Servo α) : Prop :=
  s.min_angle ≤ s.current_angle ∧ s.current_angle ≤ s.max_angle ∧
  s.min_angle ≤ s.target_angle ∧ s.target_angle ≤ s.max_angle

instance {α : Type} [LinearOrderedField α] (s : Servo α) : Decidable s.inRange := by
  unfold Servo.inRange; infer_instance

/-- Every servo of a bank satisfies `Servo.inRange`. -/
def allInRange {α : Type} [LinearOrderedField α]
    (bank : List (String × Servo α)) : Prop :=
  ∀ p ∈ bank, p.2.inRange

instance {α : Type} [LinearOrderedField α] (bank : List (String × Servo α)) :
    Decidable (allInRange bank) :=
  List.decidableBAll _ bank

/-- The mutating bank operations: single-servo writes, bulk writes (poses
and gait frames go through `set_positions`) and interpolation steps. -/
inductive BankOp (α : Type) where
  | setServo (name : String) (angle : α) (immediate : Bool)
  | setPositions (positions : List (String × α)) (immediate : Bool)
  | updateAll (delta_time : α)

/-- Run one bank operation. -/
def applyBankOp {α : Type} [LinearOrderedField α]
    (bank : List (String × Servo α)) : BankOp α → List (String × Servo α)
  | .setServo name angle immediate => set_servo bank name angle immediate
  | .setPositions positions immediate => set_positions bank positions immediate
  | .updateAll delta_time => update_all bank delta_time

section InRange

variable {α : Type} [LinearOrderedField α]

lemma clamp_mem {lo hi x : α} (h : lo ≤ hi) :
    lo ≤ max lo (min hi x) ∧ max lo (min hi x) ≤ hi :=
  ⟨le_max_left _ _, max_le h (min_le_left _ _)⟩

lemma Servo.inRange.le (s : Servo α) (h : s.inRange) : s.min_angle ≤ s.max_angle :=
  h.1.trans h.2.1

lemma write_angle_inRange {s : Servo α} (h : s.inRange) (a : α) :
    (s.write_angle a).inRange :=
  ⟨(clamp_mem h.le).1, (clamp_mem h.le).2, h.2.2.1, h.2.2.2⟩

lemma set_angle_inRange {s : Servo α} (h : s.inRange) (a : α) (imm : Bool) :
    (s.set_angle a imm).inRange := by
  unfold Servo.set_angle
  have hle : s.min_angle ≤ s.max_angle := h.le
  cases imm with
  | false => exact ⟨h.1, h.2.1, (clamp_mem hle).1, (clamp_mem hle).2⟩
  | true =>
      exact ⟨(clamp_mem hle).1, (clamp_mem hle).2, (clamp_mem hle).1, (clamp_mem hle).2⟩

lemma update_inRange {s : Servo α} (h : s.inRange) (dt speed : α) :
    (s.update dt speed).2.inRange := by
  unfold Servo.update
  by_cases hc : |s.current_angle - s.target_angle| < 0.5
  · simpa [hc] using h
  · simpa [hc] using write_angle_inRange h _

lemma set_servo_allInRange {bank : List (String × Servo α)} (h : allInRange bank)
    (name : String) (a : α) (imm : Bool) :
    allInRange (set_servo bank name a imm) := by
  intro p hp
  unfold ServoController.set_servo at hp
  obtain ⟨q, hq, he⟩ := List.mem_map.1 hp
  by_cases hqn : q.1 = name
  · rw [if_pos hqn] at he
    exact he ▸ set_angle_inRange (h q hq) a imm
  · rw [if_neg hqn] at he
    exact he ▸ h q hq

lemma set_positions_allInRange {bank : List (String × Servo α)} (h : allInRange bank)
    (ps : List (String × α)) (imm : Bool) :
    allInRange (set_positions bank ps imm) := by
  unfold ServoController.set_positions
  induction ps generalizing bank with
  | nil => exact h
  | cons q rest ih => exact ih (set_servo_allInRange h q.1 q.2 imm)

lemma update_all_allInRange {bank : List (String × Servo α)} (h : allInRange bank)
    (dt : α) : allInRange (update_all bank dt) := by
  intro p hp
  unfold ServoController.update_all at hp
  obtain ⟨q, hq, he⟩ := List.mem_map.1 hp
  exact he ▸ update_inRange (h q hq) dt (default_speed q.1)

lemma applyBankOp_allInRange {bank : List (String × Servo α)} (h : allInRange bank) :
    ∀ op : BankOp α, allInRange (applyBankOp bank op)
  | .setServo name angle imm => set_servo_allInRange h name angle imm
  | .setPositions ps imm => set_positions_allInRange h ps imm
  | .updateAll dt => update_all_allInRange h dt

end InRange

/-! ## Interpolation-step analysis for the convergence claim -/

/-- Distance between a servo's current and target angle. -/
def Servo.dist {α : Type} [LinearOrderedField α] (s : Servo α) : α :=
  |s.current_angle - s.target_angle|

/-- `n` repeated `Servo.update` calls with fixed `dt` and speed. -/
def Servo.iterUpdate {α : Type} [LinearOrderedField α] (dt speed : α) :
    ℕ → Servo α → Servo α
  | 0, s => s
  | n + 1, s => Servo.iterUpdate dt speed n (s.update dt speed).2

section StepAnalysis

variable {α : Type} [LinearOrderedField α]

lemma write_angle_current (s : Servo α) (a : α) :
    (s.write_angle a).current_angle = max s.min_angle (min s.max_angle a) := rfl

lemma write_angle_target (s : Servo α) (a : α) :
    (s.write_angle a).target_angle = s.target_angle := rfl

lemma clamp_eq_self {lo hi x : α} (h1 : lo ≤ x) (h2 : x ≤ hi) :
    max lo (min hi x) = x := by
  rw [min_eq_right h2, max_eq_right h1]

lemma update_settled {s : Servo α} (h : s.dist < 0.5) (dt speed : α) :
    s.update dt speed = (false, s) := by
  have h' : |s.current_angle - s.target_angle| < 0.5 := h
  unfold Servo.update
  rw [if_pos h']

lemma step_between {s : Servo α} (hin : s.inRange) {M : α} (hM : 0 < M) :
    s.min_angle ≤
      s.current_angle + max (-M) (min M (s.target_angle - s.current_angle)) ∧
    s.current_angle + max (-M) (min M (s.target_angle - s.current_angle)) ≤
      s.max_angle := by
  obtain ⟨h1, h2, h3, h4⟩ := hin
  rcases le_total s.current_angle s.target_angle with hct | hct
  · have hd : 0 ≤ s.target_angle - s.current_angle := sub_nonneg.2 hct
    have hstp : max (-M) (min M (s.target_angle - s.current_angle)) =
        min M (s.target_angle - s.current_angle) :=
      max_eq_right ((neg_nonpos.2 hM.le).trans (le_min hM.le hd))
    rw [hstp]
    have hge : (0 : α) ≤ min M (s.target_angle - s.current_angle) := le_min hM.le hd
    have hle : min M (s.target_angle - s.current_angle) ≤
        s.target_angle - s.current_angle := min_le_right _ _
    exact ⟨by linarith, by linarith⟩
  · have hd : s.target_angle - s.current_angle ≤ 0 := sub_nonpos.2 hct
    have hmin : min M (s.target_angle - s.current_angle) =
        s.target_angle - s.current_angle := min_eq_right (hd.trans hM.le)
    rw [hmin]
    have hge : s.target_angle - s.current_angle ≤
        max (-M) (s.target_angle - s.current_angle) := le_max_right _ _
    have hle : max (-M) (s.target_angle - s.current_angle) ≤ 0 :=
      max_le (neg_nonpos.2 hM.le) hd
    exact ⟨by linarith, by linarith⟩

lemma step_dist_eq {cur tgt M : α} (hM : 0 < M) :
    |cur + max (-M) (min M (tgt - cur)) - tgt| = max (|cur - tgt| - M) 0 := by
  rcases le_total cur tgt with hct | hct
  · have h1 : |cur - tgt| = tgt - cur := by
      rw [abs_sub_comm]; exact abs_of_nonneg (sub_nonneg.2 hct)
    have hstp : max (-M) (min M (tgt - cur)) = min M (tgt - cur) :=
      max_eq_right ((neg_nonpos.2 hM.le).trans (le_min hM.le (sub_nonneg.2 hct)))
    rw [h1, hstp]
    rcases le_total M (tgt - cur) with hMd | hMd
    · rw [min_eq_left hMd, abs_of_nonpos (by linarith), max_eq_left (by linarith)]
      ring
    · rw [min_eq_right hMd, abs_of_nonpos (by linarith), max_eq_right (by linarith)]
      ring
  · have h1 : |cur - tgt| = cur - tgt := abs_of_nonneg (sub_nonneg.2 hct)
    have hstp : max (-M) (min M (tgt - cur)) = max (-M) (tgt - cur) := by
      rw [min_eq_right ((sub_nonpos.2 hct).trans hM.le)]
    rw [h1, hstp]
    rcases le_total (-M) (tgt - cur) with hMd | hMd
    · rw [max_eq_right hMd, abs_of_nonneg (by linarith), max_eq_right (by linarith)]
      ring
    · rw [max_eq_left hMd, abs_of_nonneg (by linarith), max_eq_left (by linarith)]
      ring

lemma update_moving {s : Servo α} (hin : s.inRange) {dt speed : α}
    (hdt : 0 < dt) (hsp : 0 < speed) (h : (0.5 : α) ≤ s.dist) :
    (s.update dt speed).1 = true ∧
    (s.update dt speed).2.target_angle = s.target_angle ∧
    |(s.update dt speed).2.current_angle - s.current_angle| ≤ speed * dt ∧
    (s.update dt speed).2.dist = max (s.dist - speed * dt) 0 := by
  have hM : 0 < speed * dt := mul_pos hsp hdt
  have hnot : ¬ |s.current_angle - s.target_angle| < 0.5 := not_lt.2 h
  have key : s.update dt speed =
      (true, s.write_angle (s.current_angle +
        max (-(speed * dt)) (min (speed * dt) (s.target_angle - s.current_angle)))) := by
    unfold Servo.update
    rw [if_neg hnot]
  obtain ⟨hb1, hb2⟩ := step_between hin hM
  rw [key]
  refine ⟨rfl, rfl, ?_, ?_⟩
  · rw [write_angle_current, clamp_eq_self hb1 hb2, add_sub_cancel_left]
    exact abs_le.2 ⟨le_max_left _ _, max_le (by linarith) (min_le_left _ _)⟩
  · show |_ - _| = _
    rw [write_angle_current, write_angle_target, clamp_eq_self hb1 hb2]
    exact step_dist_eq hM

lemma update_dist_nonincrease {s : Servo α} (hin : s.inRange) {dt speed : α}
    (hdt : 0 < dt) (hsp : 0 < speed) :
    (s.update dt speed).2.dist ≤ s.dist := by
  rcases lt_or_le s.dist 0.5 with hlt | hle
  · rw [update_settled hlt]
  · rw [(update_moving hin hdt hsp hle).2.2.2]
    exact max_le (sub_le_self _ (mul_pos hsp hdt).le) (abs_nonneg _)

lemma iter_succ (dt speed : α) (n : ℕ) (s : Servo α) :
    Servo.iterUpdate dt speed (n + 1) s =
      ((Servo.iterUpdate dt speed n s).update dt speed).2 := by
  induction n generalizing s with
  | zero => rfl
  | succ n ih => exact ih ((s.update dt speed).2)

lemma iter_inRange {s : Servo α} (hin : s.inRange) (dt speed : α) (n : ℕ) :
    (Servo.iterUpdate dt speed n s).inRange := by
  induction n generalizing s with
  | zero => exact hin
  | succ n ih => exact ih (update_inRange hin dt speed)

lemma iter_dist_bound {s : Servo α} (hin : s.inRange) {dt speed : α}
    (hdt : 0 < dt) (hsp : 0 < speed) :
    ∀ n : ℕ, (Servo.iterUpdate dt speed n s).dist < 0.5 ∨
      (Servo.iterUpdate dt speed n s).dist ≤ s.dist - n * (speed * dt) := by
  intro n
  induction n with
  | zero => right; simp [Servo.iterUpdate]
  | succ n ih =>
      rcases ih with hcase | hcase
      · left
        rw [iter_succ, update_settled hcase]
        exact hcase
      · rcases lt_or_le (Servo.iterUpdate dt speed n s).dist 0.5 with hlt | hle
        · left
          rw [iter_succ, update_settled hlt]
          exact hlt
        · have heq := (update_moving (iter_inRange hin dt speed n) hdt hsp hle).2.2.2
          rcases le_total (speed * dt) (Servo.iterUpdate dt speed n s).dist with hMd | hMd
          · right
            rw [iter_succ, heq, max_eq_left (by linarith)]
            push_cast
            linarith
          · left
            rw [iter_succ, heq, max_eq_right (by linarith)]
            norm_num

end StepAnalysis

/-! ## Claims -/

/-- C1, counterexample: start walking, then `set_pose("sit", immediate=True)`.
The claim says the mode is forced to Idle, but the walking flag is still set:
`set_pose` only writes the pose to the servo bank and never touches
`is_walking`, `is_moving` or the movement queue. -/
theorem setPose_while_walking_keeps_walking_flag :
    ((initController.start_walk 1 0 1).set_pose "sit" true).is_walking = true := rfl

/-- C1 (amended): `set_pose(name, immediate)` applies the named pose's angle
map to the actuator bank (with no smoothing delay when `immediate`), but it
does not cancel Walking or an in-progress sequence: the walking flag, the
sequence flag and the movement queue are all left unchanged. -/
theorem setPose_applies_pose_without_mode_change (st : GaitController)
    (name : String) (immediate : Bool) :
    (st.set_pose name immediate).is_walking = st.is_walking ∧
    (st.set_pose name immediate).is_moving = st.is_moving ∧
    (st.set_pose name immediate).movement_queue = st.movement_queue ∧
    (st.set_pose name immediate).servos =
      set_positions st.servos (st.get_pose name) immediate :=
  ⟨rfl, rfl, rfl, rfl⟩

/-- C2, counterexample: start the `wave` sequence (6 keyframes, one applied
immediately, 5 queued), then `start_walk`.  The claim says the sequence
becomes inactive and its queue is abandoned, but the sequence flag is still
set and all 5 remaining keyframes are still queued. -/
theorem startWalk_during_wave_keeps_sequence :
    ((initController.wave 0).start_walk 1 0 1).is_moving = true ∧
    ((initController.wave 0).start_walk 1 0 1).movement_queue.length = 5 :=
  ⟨rfl, rfl⟩

/-- C2 (amended): `start_walk` while a sequence is in progress does not
cancel the sequence: the sequence flag and its queue are untouched (only the
walking fields change); the sequence is merely suspended, because `update`
runs the walking branch and does not pop keyframes while `is_walking` holds
(so the remaining keyframes can still be applied after the walk stops). -/
theorem startWalk_defers_in_progress_sequence (st : GaitController)
    (d t s : ℝ) :
    (st.start_walk d t s).is_moving = st.is_moving ∧
    (st.start_walk d t s).movement_queue = st.movement_queue ∧
    (st.start_walk d t s).is_walking = true ∧
    ∀ (dt : ℝ) (now : ℤ),
      ((st.start_walk d t s).update dt now).is_moving = st.is_moving ∧
      ((st.start_walk d t s).update dt now).movement_queue = st.movement_queue := by
  refine ⟨rfl, rfl, rfl, fun dt now => ?_⟩
  simp only [GaitController.update, GaitController.start_walk, GaitController.update_walk]
  simp

/-- C3, counterexample: start the `wiggle` sequence, then `start_walk`.
Both activity flags hold at once in this reachable state, so the modes are
not mutually exclusive. -/
theorem walking_and_sequencing_active_simultaneously :
    ((initController.wiggle 0).start_walk 1 0 1).is_walking = true ∧
    ((initController.wiggle 0).start_walk 1 0 1).is_moving = true :=
  ⟨rfl, rfl⟩

/-- C3 (amended): the walking-active and sequence-active flags are
independent and can hold simultaneously; exclusivity is enforced only at
update time, by priority: while `is_walking` holds, `update` never advances
the sequencer (its flag, queue and current keyframe are untouched). -/
theorem update_gives_walking_priority (st : GaitController) (dt : ℝ) (now : ℤ)
    (h : st.is_walking = true) :
    (st.update dt now).is_moving = st.is_moving ∧
    (st.update dt now).movement_queue = st.movement_queue ∧
    (st.update dt now).current_movement = st.current_movement := by
  simp only [GaitController.update, GaitController.update_walk, h]
  simp

/-- C3 witness: the amended priority theorem applied to a concrete walking
state. -/
theorem update_gives_walking_priority_witness :
    (initController.start_walk 1 0 1).is_walking = true ∧
    (((initController.start_walk 1 0 1).update 0.1 7).is_moving =
        (initController.start_walk 1 0 1).is_moving ∧
      ((initController.start_walk 1 0 1).update 0.1 7).movement_queue =
        (initController.start_walk 1 0 1).movement_queue ∧
      ((initController.start_walk 1 0 1).update 0.1 7).current_movement =
        (initController.start_walk 1 0 1).current_movement) :=
  ⟨rfl, update_gives_walking_priority (initController.start_walk 1 0 1) 0.1 7 rfl⟩

/-- C4: starting from the configured bank, after any sequence of mutating
operations (single-servo writes with arbitrary — possibly out-of-range —
requested angles, bulk pose/gait writes, interpolation steps), every servo's
current and target angle lie within its `[min_angle, max_angle]` limits:
out-of-range requests are silently clamped by `set_angle`/`_write_angle`,
and every operation is total, so no error is ever raised. -/
theorem actuator_angles_always_within_limits (ops : List (BankOp ℚ)) :
    allInRange (ops.foldl applyBankOp (initServoBank ℚ)) := by
  have hinit : allInRange (initServoBank ℚ) := by decide
  suffices h : ∀ (l : List (BankOp ℚ)) (bank : List (String × Servo ℚ)),
      allInRange bank → allInRange (l.foldl applyBankOp bank) from
    h ops _ hinit
  intro l
  induction l with
  | nil => exact fun bank h => h
  | cons op rest ih => exact fun bank h => ih _ (applyBankOp_allInRange h op)

/-- C5: for an in-limits servo and positive `dt` and speed: when the
current-target gap is below `0.5°`, `update` reports not-moving and leaves
the servo unchanged; otherwise it reports moving, keeps the target, moves
the current angle by at most `speed * dt` and brings the gap to exactly
`max (gap - speed * dt) 0` (so it never overshoots the target); repeated
steps never increase the gap and eventually bring it below `0.5°`. -/
theorem servo_step_settles_and_converges (s : Servo ℚ) (dt speed : ℚ)
    (hin : s.inRange) (hdt : 0 < dt) (hsp : 0 < speed) :
    (s.dist < 0.5 → s.update dt speed = (false, s)) ∧
    ((0.5 : ℚ) ≤ s.dist →
      (s.update dt speed).1 = true ∧
      (s.update dt speed).2.target_angle = s.target_angle ∧
      |(s.update dt speed).2.current_angle - s.current_angle| ≤ speed * dt ∧
      (s.update dt speed).2.dist = max (s.dist - speed * dt) 0) ∧
    (∀ n : ℕ, (Servo.iterUpdate dt speed (n + 1) s).dist ≤
      (Servo.iterUpdate dt speed n s).dist) ∧
    (∃ n : ℕ, (Servo.iterUpdate dt speed n s).dist < 0.5) := by
  refine ⟨fun h => update_settled h dt speed,
          fun h => update_moving hin hdt hsp h,
          fun n => ?_, ?_⟩
  · rw [iter_succ]
    exact update_dist_nonincrease (iter_inRange hin dt speed n) hdt hsp
  · have hM : 0 < speed * dt := mul_pos hsp hdt
    obtain ⟨n, hn⟩ := exists_nat_gt (s.dist / (speed * dt))
    rcases iter_dist_bound hin hdt hsp n with h | h
    · exact ⟨n, h⟩
    · refine ⟨n, lt_of_le_of_lt h ?_⟩
      have hlt : s.dist < n * (speed * dt) := (div_lt_iff₀ hM).1 hn
      nlinarith

/-- Concrete servo used by the C5 witness: limits `(0, 180)`, current `90`,
target `120`. -/
def servoW : Servo ℚ := ⟨"R1", false, 0, 180, 90, 90, 120⟩

/-- C5 witness: the convergence theorem applied to `servoW` with
`dt = 1/10` and `speed = 54` (the configured femur default). -/
theorem servo_step_settles_and_converges_witness :
    (servoW.inRange ∧ (0 : ℚ) < 1/10 ∧ (0 : ℚ) < 54) ∧
    ((servoW.dist < 0.5 → servoW.update (1/10) 54 = (false, servoW)) ∧
     ((0.5 : ℚ) ≤ servoW.dist →
       (servoW.update (1/10) 54).1 = true ∧
       (servoW.update (1/10) 54).2.target_angle = servoW.target_angle ∧
       |(servoW.update (1/10) 54).2.current_angle - servoW.current_angle| ≤
         54 * (1/10) ∧
       (servoW.update (1/10) 54).2.dist = max (servoW.dist - 54 * (1/10)) 0) ∧
     (∀ n : ℕ, (Servo.iterUpdate (1/10) 54 (n + 1) servoW).dist ≤
       (Servo.iterUpdate (1/10) 54 n servoW).dist) ∧
     (∃ n : ℕ, (Servo.iterUpdate (1/10) 54 n servoW).dist < 0.5)) :=
  ⟨⟨by norm_num [servoW, Servo.inRange], by norm_num, by norm_num⟩,
    servo_step_settles_and_converges servoW (1/10) 54
      (by norm_num [servoW, Servo.inRange]) (by norm_num) (by norm_num)⟩

/-- C6, counterexample: with `speed = 1`, phase `0` and `dt = 2` seconds,
`update_walk` stores phase `2.5 - 1 = 1.5`: the single conditional
subtraction is not a `mod 1`, so the stored phase is not in `[0, 1)`
(the claimed value `2.5 mod 1 = 0.5` is not what the code computes). -/
theorem updateWalk_phase_can_exceed_one :
    ((initController.start_walk 1 0 1).update_walk 2).walk_phase = 3/2 ∧
    ¬ ((initController.start_walk 1 0 1).update_walk 2).walk_phase < 1 := by
  have h : ((initController.start_walk 1 0 1).update_walk 2).walk_phase = 3/2 := by
    simp only [GaitController.update_walk, GaitController.start_walk,
      GaitController.initController]
    norm_num
  exact ⟨h, by rw [h]; norm_num⟩

/-- C6 (amended): while walking, `update_walk dt` advances the stored phase
by `dt / (0.8 / speed)` and then subtracts `1` at most once; the invariant
`0 ≤ phase < 1` is preserved provided the per-call increment is at most one
full cycle, i.e. `dt * speed ≤ 0.8` (for larger `dt` the stored phase can
leave `[0, 1)`, see the counterexample). -/
theorem updateWalk_phase_invariant (st : GaitController) (dt : ℝ)
    (hw : st.is_walking = true) (h0 : 0 ≤ st.walk_phase) (h1 : st.walk_phase < 1)
    (hdt : 0 < dt) (hsp : 0 < st.walk_speed)
    (hbound : dt * st.walk_speed ≤ 0.8) :
    ((st.update_walk dt).walk_phase = st.walk_phase + dt / (0.8 / st.walk_speed) ∨
      (st.update_walk dt).walk_phase =
        st.walk_phase + dt / (0.8 / st.walk_speed) - 1) ∧
    0 ≤ (st.update_walk dt).walk_phase ∧ (st.update_walk dt).walk_phase < 1 := by
  have hne : ¬ st.is_walking = false := by rw [hw]; simp
  have key : (st.update_walk dt).walk_phase =
      (if st.walk_phase + dt / (0.8 / st.walk_speed) ≥ 1.0 then
        st.walk_phase + dt / (0.8 / st.walk_speed) - 1.0
      else st.walk_phase + dt / (0.8 / st.walk_speed)) := by
    unfold GaitController.update_walk
    rw [if_neg hne]
  have hinc0 : 0 < dt / (0.8 / st.walk_speed) := by
    rw [div_div_eq_mul_div]
    positivity
  have hinc1 : dt / (0.8 / st.walk_speed) ≤ 1 := by
    rw [div_div_eq_mul_div, div_le_one (by norm_num : (0:ℝ) < 0.8)]
    exact hbound
  have h10 : (1.0 : ℝ) = 1 := by norm_num
  by_cases hp : st.walk_phase + dt / (0.8 / st.walk_speed) ≥ 1.0
  · rw [if_pos hp, h10] at key
    rw [h10] at hp
    refine ⟨Or.inr key, ?_, ?_⟩
    · rw [key]; linarith
    · rw [key]; linarith
  · rw [if_neg hp] at key
    rw [h10] at hp
    push_neg at hp
    exact ⟨Or.inl key, by rw [key]; linarith, by rw [key]; linarith⟩

/-- C6 witness: the amended phase invariant applied after
`start_walk(1, 0, 1)` with `dt = 0.4` (half a period). -/
theorem updateWalk_phase_invariant_witness :
    ((initController.start_walk 1 0 1).is_walking = true ∧
      0 ≤ (initController.start_walk 1 0 1).walk_phase ∧
      (initController.start_walk 1 0 1).walk_phase < 1 ∧
      (0 : ℝ) < 0.4 ∧
      0 < (initController.start_walk 1 0 1).walk_speed ∧
      0.4 * (initController.start_walk 1 0 1).walk_speed ≤ 0.8) ∧
    ((((initController.start_walk 1 0 1).update_walk 0.4).walk_phase =
        (initController.start_walk 1 0 1).walk_phase +
          0.4 / (0.8 / (initController.start_walk 1 0 1).walk_speed) ∨
      ((initController.start_walk 1 0 1).update_walk 0.4).walk_phase =
        (initController.start_walk 1 0 1).walk_phase +
          0.4 / (0.8 / (initController.start_walk 1 0 1).walk_speed) - 1) ∧
    0 ≤ ((initController.start_walk 1 0 1).update_walk 0.4).walk_phase ∧
    ((initController.start_walk 1 0 1).update_walk 0.4).walk_phase < 1) := by
  have h1 : (initController.start_walk 1 0 1).is_walking = true := rfl
  have h2 : (initController.start_walk 1 0 1).walk_phase = 0 := by
    norm_num [GaitController.start_walk, GaitController.initController]
  have h3 : (initController.start_walk 1 0 1).walk_speed = 1 := by
    norm_num [GaitController.start_walk, GaitController.initController]
  refine ⟨⟨h1, by rw [h2], by rw [h2]; norm_num, by norm_num,
    by rw [h3]; norm_num, by rw [h3]; norm_num⟩, ?_⟩
  exact updateWalk_phase_invariant (initController.start_walk 1 0 1) 0.4
    h1 (by rw [h2]) (by rw [h2]; norm_num) (by norm_num)
    (by rw [h3]; norm_num) (by rw [h3]; norm_num)

/-- Modelled from the spec's wording, for comparison with the source's
conversion: inversion as the reflection through the joint's configured
limits, `angle' = maxAngle - (angle - minAngle)`, followed by the same
linear map onto the pulse-width range and the same duty scaling. -/
def duty_via_limit_reflection {α : Type} [LinearOrderedField α] [FloorRing α]
    (s : Servo α) (angle : α) : ℤ :=
  let a := s.max_angle - (angle - s.min_angle)
  let pulse_us := 500 + (a / 180) * (2500 - 500)
  let period_us := (1000000 : α) / 50
  pyInt ((pulse_us / period_us) * 65535)

lemma duty_eq_of_limits {s : Servo ℚ} (hinv : s.inverted = true)
    (hmin : s.min_angle = 0) (hmax : s.max_angle = 180) (angle : ℚ) :
    s.angle_to_duty angle = duty_via_limit_reflection s angle := by
  unfold Servo.angle_to_duty duty_via_limit_reflection
  rw [hinv, hmin, hmax]
  simp only [if_true]
  congr 1
  ring

/-- C7: for every inverted joint of the configured bank and every logical
angle, the source's duty conversion (which reflects through `180 - angle`)
agrees with the spec's reflection through the joint's configured limits,
`angle' = maxAngle - (angle - minAngle)`, followed by the same linear map
onto the pulse-width range — because every configured joint has limits
`(0, 180)`. -/
theorem inverted_duty_matches_limit_reflection (p : String × Servo ℚ)
    (hp : p ∈ initServoBank ℚ) (hinv : p.2.inverted = true) (angle : ℚ) :
    p.2.angle_to_duty angle = duty_via_limit_reflection p.2 angle := by
  have hlim : p.2.min_angle = 0 ∧ p.2.max_angle = 180 := by
    simp only [initServoBank, ALL_SERVOS, List.map_cons, List.map_nil,
      List.mem_cons, List.not_mem_nil, or_false] at hp
    rcases hp with h | h | h | h | h | h | h | h <;> (subst h; exact ⟨rfl, rfl⟩)
  exact duty_eq_of_limits hinv hlim.1 hlim.2 angle

/-- C7 witness: the reflection equality applied to the configured inverted
joint `L1` at angle `77°`. -/
theorem inverted_duty_matches_limit_reflection_witness :
    (("L1", Servo.init "L1" true (0 : ℚ) 180 90) ∈ initServoBank ℚ ∧
      (Servo.init "L1" true (0 : ℚ) 180 90).inverted = true) ∧
    (Servo.init "L1" true (0 : ℚ) 180 90).angle_to_duty 77 =
      duty_via_limit_reflection (Servo.init "L1" true (0 : ℚ) 180 90) 77 :=
  ⟨⟨by decide, rfl⟩,
    inverted_duty_matches_limit_reflection ("L1", Servo.init "L1" true 0 180 90)
      (by decide) rfl 77⟩

lemma sin_fract_half_shift (x : ℝ) :
    Real.sin ((Int.fract x + 0.5) * 2 * Real.pi) =
      Real.sin (Int.fract (x + 0.5) * 2 * Real.pi) := by
  have h : (Int.fract x + 0.5) * 2 * Real.pi =
      Int.fract (x + 0.5) * 2 * Real.pi +
        (⌊x + 0.5⌋ - ⌊x⌋ : ℤ) * (2 * Real.pi) := by
    rw [← Int.self_sub_floor, ← Int.self_sub_floor]
    push_cast
    ring
  rw [h, Real.sin_add_int_mul_two_pi]

/-- C8: at `turn = 0`, for every phase and direction, the Group B joints
(front-left `L1`/`L3` and back-right `R2`/`R4`) receive at phase `p`
exactly the angles the corresponding Group A joints (front-right `R1`/`R3`
and back-left `L2`/`L4`) receive at phase `(p + 0.5) mod 1`. -/
theorem gait_group_B_is_half_cycle_shift_of_A (st : GaitController) (p d : ℝ) :
    ((st.get_walk_positions p d 0).lookup "L1" =
      (st.get_walk_positions (Int.fract (p + 0.5)) d 0).lookup "R1") ∧
    ((st.get_walk_positions p d 0).lookup "R2" =
      (st.get_walk_positions (Int.fract (p + 0.5)) d 0).lookup "L2") ∧
    ((st.get_walk_positions p d 0).lookup "L3" =
      (st.get_walk_positions (Int.fract (p + 0.5)) d 0).lookup "R3") ∧
    ((st.get_walk_positions p d 0).lookup "R4" =
      (st.get_walk_positions (Int.fract (p + 0.5)) d 0).lookup "L4") := by
  unfold GaitController.get_walk_positions
  simp only [Int.fract_fract]
  rw [sin_fract_half_shift p]
  simp [List.lookup]

/-- C9: setting an angle under a joint name outside the eight configured
names is a no-op, both through `set_servo` and through `set_positions`: the
bank (hence every current- and target-angle snapshot) is unchanged and no
error is possible. -/
theorem unknown_joint_setting_is_noop (bank : List (String × Servo ℚ))
    (name : String) (angle : ℚ) (immediate : Bool)
    (hkeys : ∀ p ∈ bank, p.1 ∈ ALL_SERVOS) (hname : name ∉ ALL_SERVOS) :
    set_servo bank name angle immediate = bank ∧
    set_positions bank [(name, angle)] immediate = bank := by
  have h : set_servo bank name angle immediate = bank := by
    unfold ServoController.set_servo
    induction bank with
    | nil => rfl
    | cons p rest ih =>
        have hp : p.1 ≠ name := fun he => hname (he ▸ hkeys p (List.mem_cons_self p rest))
        simp only [List.map_cons, if_neg hp]
        rw [ih fun q hq => hkeys q (List.mem_cons_of_mem p hq)]
  exact ⟨h, h⟩

/-- C9 witness: the no-op theorem applied to the configured bank and the
unconfigured name `"ZZ"`. -/
theorem unknown_joint_setting_is_noop_witness :
    ((∀ p ∈ initServoBank ℚ, p.1 ∈ ALL_SERVOS) ∧ "ZZ" ∉ ALL_SERVOS) ∧
    (set_servo (initServoBank ℚ) "ZZ" 45 true = initServoBank ℚ ∧
      set_positions (initServoBank ℚ) [("ZZ", 45)] true = initServoBank ℚ) :=
  ⟨⟨by decide, by decide⟩,
    unknown_joint_setting_is_noop (initServoBank ℚ) "ZZ" 45 true
      (by decide) (by decide)⟩

/-- C10: a pose name outside the five known poses falls back to the
`"neutral"` pose: `get_pose` returns the all-`90°` map and `set_pose`
behaves exactly like `set_pose "neutral"` (not a no-op, not an error). -/
theorem unknown_pose_applies_neutral (name : String)
    (h : name ∉ ["neutral", "stand", "sit", "tall", "crouch"])
    (st : GaitController) (immediate : Bool) :
    st.get_pose name =
      [("R1", 90), ("R2", 90), ("L1", 90), ("L2", 90),
       ("R3", 90), ("R4", 90), ("L3", 90), ("L4", 90)] ∧
    st.set_pose name immediate = st.set_pose "neutral" immediate := by
  simp only [List.mem_cons, List.not_mem_nil, or_false, not_or] at h
  obtain ⟨h1, h2, h3, h4, h5⟩ := h
  have hp : st.get_pose name =
      [("R1", 90), ("R2", 90), ("L1", 90), ("L2", 90),
       ("R3", 90), ("R4", 90), ("L3", 90), ("L4", 90)] := by
    unfold GaitController.get_pose
    rw [if_neg h1, if_neg h2, if_neg h3, if_neg h4, if_neg h5]
  refine ⟨hp, ?_⟩
  unfold GaitController.set_pose
  rw [hp]
  unfold GaitController.get_pose
  rw [if_pos rfl]

/-- C10 witness: the fallback theorem applied to the unknown pose name
`"dance"`. -/
theorem unknown_pose_applies_neutral_witness :
    "dance" ∉ ["neutral", "stand", "sit", "tall", "crouch"] ∧
    (initController.get_pose "dance" =
      [("R1", 90), ("R2", 90), ("L1", 90), ("L2", 90),
       ("R3", 90), ("R4", 90), ("L3", 90), ("L4", 90)] ∧
    initController.set_pose "dance" true = initController.set_pose "neutral" true) :=
  ⟨by decide, unknown_pose_applies_neutral "dance" (by decide) initController true⟩

end Paulbot
